import Mathlib

/-!
# The RegexScheduling filter plugin (`examples/regex/main.go`)

A shallow embedding of the plugin's `Filter` extension point and of the
library functions it calls, followed by theorems about it.

Go strings are modelled by Lean `String`s, that is by sequences of Unicode
scalar values (a Go string that is valid UTF-8).  Substring containment is
`List.IsInfix` on the character lists, which for valid UTF-8 coincides with
containment of the byte sequences.
-/

set_option linter.unusedVariables false
set_option maxRecDepth 8192

namespace RegexExample

/-! ## guest/api: status codes and the status object -/

/-- Modelled from the spec: the type `api.StatusCode` is declared in `guest/api`,
outside `src/`.  The source names three of its values (`StatusCodeSuccess`,
`StatusCodeError`, `StatusCodeUnschedulable`); the other constructors stand for
the remaining codes of the scheduler framework, which `Filter` never builds. -/
inductive StatusCode where
  | Success
  | Error
  | Unschedulable
  | UnschedulableAndUnresolvable
  | Wait
  | Skip
  deriving DecidableEq, Repr

/-- Modelled from the spec: `api.Status` (declared in `guest/api`) holds a code
and a reason string; the zero value of `Reason` is the empty string. -/
structure Status where
  Code : StatusCode
  Reason : String := ""
  deriving DecidableEq, Repr

/-! ## The host-supplied descriptors -/

/-- A Go `map[string]string`: `none` is the nil map, `some l` a map holding the
entries of `l` (the first entry of a key is the one a lookup finds). -/
abbrev GoMap := Option (List (String × String))

/-- The comma-ok index expression `v, ok := m[k]`: the zero value and `false`
when the key is absent, also on a nil map. -/
def GoMap.index (m : GoMap) (k : String) : String × Bool :=
  match m with
  | none => ("", false)
  | some l =>
    match l.lookup k with
    | some v => (v, true)
    | none => ("", false)

/-- Modelled from the spec: `proto.Pod`, of which `Filter` reads the annotations. -/
structure Pod where
  Annotations : GoMap

/-- The accessor `pod.GetAnnotations()`. -/
def Pod.GetAnnotations (pod : Pod) : GoMap := pod.Annotations

/-- Modelled from the spec: `proto.Node`, of which `Filter` reads the name. -/
structure Node where
  Name : String

/-- The accessor `node.GetName()`. -/
def Node.GetName (n : Node) : String := n.Name

/-- Modelled from the spec: `api.NodeInfo`, the node descriptor handed to `Filter`. -/
structure NodeInfo where
  node : Node

/-- The accessor `nodeInfo.Node()`. -/
def NodeInfo.Node (ni : NodeInfo) : Node := ni.node

/-- Modelled from the spec: `api.CycleState`, the per-cycle key/value store of the
host. -/
structure CycleState where
  store : List (String × String)

/-- Modelled from the spec: `klogapi.Klog`, the logging capability; the model keeps
the lines written to it. -/
structure Klog where
  lines : List String

/-! ## strconv.Quote, the `%q` verb of fmt -/

/-- The digits `lowerhex` of package strconv. -/
def lowerhex (n : Nat) : Char := "0123456789abcdef".data.getD (n % 16) '0'

/-- Go's `strconv.IsPrint`.  Runes up to U+00FF are decided as in the library;
above that the library searches its Unicode tables, here the parameter
`isPrintWide`. -/
def IsPrint (isPrintWide : Nat → Bool) (r : Char) : Bool :=
  if r.toNat ≤ 0xFF then
    if 0x20 ≤ r.toNat ∧ r.toNat ≤ 0x7E then true
    else if 0xA1 ≤ r.toNat ∧ r.toNat ≤ 0xFF then r.toNat != 0xAD
    else false
  else isPrintWide r.toNat

/-- Go's `strconv.appendEscapedRune` with `ASCIIonly = false` and
`graphicOnly = false`, as `Quote` calls it.  A Lean `Char` is a valid rune, so the
branch for invalid runes is absent. -/
def appendEscapedRune (isPrintWide : Nat → Bool) (buf : List Char) (r : Char)
    (quote : Char) : List Char :=
  if r = quote ∨ r = '\\' then buf ++ ['\\', r]
  else if IsPrint isPrintWide r then buf ++ [r]
  else
    match r.toNat with
    | 7 => buf ++ ['\\', 'a']
    | 8 => buf ++ ['\\', 'b']
    | 12 => buf ++ ['\\', 'f']
    | 10 => buf ++ ['\\', 'n']
    | 13 => buf ++ ['\\', 'r']
    | 9 => buf ++ ['\\', 't']
    | 11 => buf ++ ['\\', 'v']
    | n =>
      if n < 0x20 ∨ n = 0x7F then
        buf ++ ['\\', 'x', lowerhex (n / 16), lowerhex (n % 16)]
      else if n < 0x10000 then
        buf ++ ['\\', 'u'] ++ [12, 8, 4, 0].map (fun s => lowerhex (n / 2 ^ s % 16))
      else
        buf ++ ['\\', 'U'] ++
          [28, 24, 20, 16, 12, 8, 4, 0].map (fun s => lowerhex (n / 2 ^ s % 16))

/-- Go's `strconv.Quote` (`appendQuotedWith` with the double quote): the
double-quoted Go string literal of `s`. -/
def Quote (isPrintWide : Nat → Bool) (s : String) : String :=
  String.mk
    ((s.data.foldl (fun buf r => appendEscapedRune isPrintWide buf r '"') ['"']) ++ ['"'])

/-! ## Package regexp of the Go standard library

The library is not part of the repository.  `Stdlib` collects what `Filter`
needs of it, so that the theorems about `Filter` hold for every regular
expression engine; `goStdlib` further down is a model of the library's own
parser and matcher on a fragment of the pattern language, used where a statement
is about particular patterns. -/

/-- The error value `*syntax.Error` of package regexp/syntax: an error code (a
string in the library) and the offending expression. -/
structure RegexpError where
  Code : String
  Expr : String
  deriving DecidableEq, Repr

/-- The method `(*syntax.Error).Error`, which the `%s` verb prints. -/
def RegexpError.Error (e : RegexpError) : String :=
  "error parsing regexp: " ++ e.Code ++ ": \x60" ++ e.Expr ++ "\x60"

/-- The library functions the plugin links against and the model does not fix:
`regexp.Compile`, the method `(*Regexp).MatchString`, and the Unicode tables of
`strconv.IsPrint`. -/
structure Stdlib where
  Regexp : Type
  Compile : String → Except RegexpError Regexp
  reMatchString : Regexp → String → Bool
  isPrintWide : Nat → Bool

/-- Go's package-level `regexp.MatchString(pattern, s)`: compile the pattern,
return `(false, err)` when that fails and `(re.MatchString(s), nil)` otherwise. -/
def Stdlib.MatchString (L : Stdlib) (pattern s : String) : Bool × Option RegexpError :=
  match L.Compile pattern with
  | .error err => (false, some err)
  | .ok re => (L.reMatchString re s, none)

/-! ## A model of the library's parser and matcher

`Parse` follows `syntax.Parse` of the library under the flags `syntax.Perl`,
which is how `regexp.Compile` calls it: a loop over the pattern that keeps a
stack of expressions and of the two pseudo-operators "left parenthesis" and
"vertical bar".  The model covers literal characters, `.`, `^`, `$`, the
repetitions `*`, `+`, `?` with their non-greedy forms, alternation and capturing
groups.  On meeting a backslash, a `[`, a `\x7b` or a group opening with `(?` it
answers `unmodelled`.  The rewritings the library applies that leave the matched
language unchanged (merging adjacent literals into one string, factoring common
beginnings of alternatives, merging single characters into a class) and its
limits on the size and the nesting depth of an expression are not modelled: a
pattern of a thousand nested groups, which the library refuses, parses here.  The
patterns the statements below name stay far from these limits; the statement on
patterns of literal characters is one about this model at every length, while
the library refuses a pattern of some tens of millions of characters. -/

/-- The expression tree `syntax.Regexp`, with binary concatenation and
alternation. -/
inductive Regexp where
  | NoMatch
  | EmptyMatch
  | Literal (r : Char)
  | AnyCharNotNL
  | BeginText
  | EndText
  | Capture (cap : Nat) (sub : Regexp)
  | Star (nonGreedy : Bool) (sub : Regexp)
  | Plus (nonGreedy : Bool) (sub : Regexp)
  | Quest (nonGreedy : Bool) (sub : Regexp)
  | Concat (a b : Regexp)
  | Alternate (a b : Regexp)
  deriving DecidableEq, Repr

/-- The repetition operators `OpStar`, `OpPlus`, `OpQuest`. -/
inductive RepeatOp where
  | Star
  | Plus
  | Quest
  deriving DecidableEq, Repr

/-- An entry of the parse stack: an expression, or one of the pseudo-operators
`opLeftParen` (with its capture index) and `opVerticalBar`. -/
inductive StackItem where
  | re (r : Regexp)
  | LeftParen (cap : Nat)
  | VerticalBar
  deriving DecidableEq, Repr

/-- The test `Op < opPseudo`: the entry is an expression. -/
def StackItem.isRe : StackItem → Bool
  | .re _ => true
  | _ => false

/-- The expressions among the entries, in the order of the entries (for a stack:
top first). -/
def StackItem.regexps : List StackItem → List Regexp
  | [] => []
  | .re r :: rest => r :: StackItem.regexps rest
  | _ :: rest => StackItem.regexps rest

/-- The parser state: the stack (top first) and the number of capture groups. -/
structure Parser where
  stack : List StackItem
  numCap : Nat
  deriving DecidableEq, Repr

/-- What parsing answers: an expression, an error, or `unmodelled` for a pattern
that leaves the fragment before any error is found. -/
inductive ParseResult where
  | ok (re : Regexp)
  | err (e : RegexpError)
  | unmodelled
  deriving DecidableEq, Repr

/-- The error code `ErrMissingParen` of package regexp/syntax. -/
def ErrMissingParen : String := "missing closing )"

/-- The error code `ErrMissingRepeatArgument` of package regexp/syntax. -/
def ErrMissingRepeatArgument : String := "missing argument to repetition operator"

/-- The error code `ErrInvalidRepeatOp` of package regexp/syntax. -/
def ErrInvalidRepeatOp : String := "invalid nested repetition operator"

/-- The error code `ErrUnexpectedParen` of package regexp/syntax. -/
def ErrUnexpectedParen : String := "unexpected )"

/-- The library's `collapse` on the non-empty list of expressions `subs ++ [last]`:
the expression itself when there is one, otherwise their concatenation or
alternation (nested to the right). -/
def collapse (op : Regexp → Regexp → Regexp) : List Regexp → Regexp → Regexp
  | [], last => last
  | r :: rest, last => op r (collapse op rest last)

/-- The method `concat`: replace the expressions above the topmost
pseudo-operator by their concatenation, or by the empty match when there is
none. -/
def Parser.concat (p : Parser) : Parser :=
  let rest := p.stack.dropWhile StackItem.isRe
  match StackItem.regexps (p.stack.takeWhile StackItem.isRe) with
  | [] => { p with stack := .re .EmptyMatch :: rest }
  | last :: front => { p with stack := .re (collapse .Concat front.reverse last) :: rest }

/-- The method `alternate`: replace the expressions above the topmost
pseudo-operator by their alternation, or by the expression that matches nothing
when there is none. -/
def Parser.alternate (p : Parser) : Parser :=
  let rest := p.stack.dropWhile StackItem.isRe
  match StackItem.regexps (p.stack.takeWhile StackItem.isRe) with
  | [] => { p with stack := .re .NoMatch :: rest }
  | last :: front => { p with stack := .re (collapse .Alternate front.reverse last) :: rest }

/-- The method `swapVerticalBar`: when a vertical bar sits right below the top of
the stack, move it above the top and report `true`. -/
def Parser.swapVerticalBar (p : Parser) : Parser × Bool :=
  match p.stack with
  | re1 :: .VerticalBar :: rest => ({ p with stack := .VerticalBar :: re1 :: rest }, true)
  | _ => (p, false)

/-- The method `parseVerticalBar`. -/
def Parser.parseVerticalBar (p : Parser) : Parser :=
  let (p1, swapped) := p.concat.swapVerticalBar
  if !swapped then { p1 with stack := .VerticalBar :: p1.stack } else p1

/-- The steps shared by `parseRightParen` and the end of `parse`: concatenate,
pop a vertical bar that was swapped to the top, alternate. -/
def Parser.closeAlternation (p : Parser) : Parser :=
  let (p1, swapped) := p.concat.swapVerticalBar
  let p2 := if swapped then { p1 with stack := p1.stack.tail } else p1
  p2.alternate

/-- The method `parseRightParen`: close the innermost group, or report an
unexpected `)` on the whole pattern. -/
def Parser.parseRightParen (p : Parser) (wholeRegexp : String) : Except RegexpError Parser :=
  let p1 := p.closeAlternation
  match p1.stack with
  | .re re1 :: .LeftParen cap :: rest =>
    if cap = 0 then .ok { p1 with stack := .re re1 :: rest }
    else .ok { p1 with stack := .re (.Capture cap re1) :: rest }
  | _ => .error { Code := ErrUnexpectedParen, Expr := wholeRegexp }

/-- The method `repeat`, entered with the text `before` at the operator and the
text `after` behind it: a following `?` makes the operator non-greedy; an
operator right after another one is an error, and so is one with no expression
to apply to.  The error quotes the text from the start of the offending
operators up to `after`. -/
def Parser.repeat (p : Parser) (op : RepeatOp) (before after : List Char)
    (lastRepeat : Option (List Char)) : Except RegexpError (Parser × List Char) :=
  let (after, nonGreedy) :=
    match after with
    | '?' :: rest => (rest, true)
    | _ => (after, false)
  match lastRepeat with
  | some last =>
    .error { Code := ErrInvalidRepeatOp,
             Expr := String.mk (last.take (last.length - after.length)) }
  | none =>
    match p.stack with
    | .re sub :: rest =>
      let re :=
        match op with
        | .Star => Regexp.Star nonGreedy sub
        | .Plus => Regexp.Plus nonGreedy sub
        | .Quest => Regexp.Quest nonGreedy sub
      .ok ({ p with stack := .re re :: rest }, after)
    | _ =>
      .error { Code := ErrMissingRepeatArgument,
               Expr := String.mk (before.take (before.length - after.length)) }

/-- The end of `parse`, after the loop: close the alternation; a stack that does
not hold exactly one entry means a group was left open. -/
def Parser.finish (p : Parser) (wholeRegexp : String) : ParseResult :=
  match p.closeAlternation.stack with
  | [.re re] => .ok re
  | _ => .err { Code := ErrMissingParen, Expr := wholeRegexp }

/-- The repetition operator a character stands for. -/
def repeatOpOf (c : Char) : Option RepeatOp :=
  if c = '*' then some .Star
  else if c = '+' then some .Plus
  else if c = '?' then some .Quest
  else none

/-- What one round of the loop of `parse` leaves: the final answer, or the state
for the next round, with `skip` set when the round also consumed the `?` that
follows its repetition operator. -/
inductive Step where
  | done (r : ParseResult)
  | next (p : Parser) (lastRepeat : Option (List Char)) (skip : Bool)

/-- One round of the loop of `parse`, the big switch on the first character `c` of
the rest `c :: t` of the pattern.  `lastRepeat` is the text at the repetition
operator handled by the previous round, if that round handled one. -/
def parseStep (wholeRegexp : String) (c : Char) (t : List Char) (p : Parser)
    (lastRepeat : Option (List Char)) : Step :=
  if c = '(' then
    if t.head? = some '?' then .done .unmodelled
    else .next { stack := .LeftParen (p.numCap + 1) :: p.stack, numCap := p.numCap + 1 } none false
  else if c = '|' then
    .next p.parseVerticalBar none false
  else if c = ')' then
    match p.parseRightParen wholeRegexp with
    | .error e => .done (.err e)
    | .ok p1 => .next p1 none false
  else if c = '^' then
    .next { p with stack := .re .BeginText :: p.stack } none false
  else if c = '$' then
    .next { p with stack := .re .EndText :: p.stack } none false
  else if c = '.' then
    .next { p with stack := .re .AnyCharNotNL :: p.stack } none false
  else if c = '[' ∨ c = '\x7b' ∨ c = '\\' then
    .done .unmodelled
  else
    match repeatOpOf c with
    | some op =>
      match p.repeat op (c :: t) t lastRepeat with
      | .error e => .done (.err e)
      | .ok (p1, after) => .next p1 (some (c :: t)) (decide (after.length < t.length))
    | none =>
      .next { p with stack := .re (.Literal c) :: p.stack } none false

/-- The loop of `parse` over the rest of the pattern.  With `skip` set the first
character is the `?` the previous round consumed. -/
def parseLoop (wholeRegexp : String) :
    List Char → Parser → Option (List Char) → Bool → ParseResult
  | [], p, _, _ => p.finish wholeRegexp
  | _ :: t, p, lastRepeat, true => parseLoop wholeRegexp t p lastRepeat false
  | c :: t, p, lastRepeat, false =>
    match parseStep wholeRegexp c t p lastRepeat with
    | .done r => r
    | .next p1 lastRepeat1 skip => parseLoop wholeRegexp t p1 lastRepeat1 skip

/-- The function `syntax.Parse(s, syntax.Perl)` on the fragment. -/
def Parse (s : String) : ParseResult :=
  parseLoop s s.data { stack := [], numCap := 0 } none false

/-! ### Matching

`(*Regexp).MatchString` reports whether the string contains a match of the
expression.  The library decides this by running a compiled automaton; the model
computes the same answer from the expression tree: `Regexp.ends` lists where a
match starting at a given position can end, a position being the text that is
left. -/

/-- The positions reachable from `s` by repeating `f` any number of times.  Each
repetition that counts consumes a character, so `fuel` above the length of `s`
reaches them all. -/
def starEnds (f : List Char → List (List Char)) : Nat → List Char → List (List Char)
  | 0, s => [s]
  | fuel + 1, s =>
    s :: ((f s).filter (fun s1 => decide (s1.length < s.length))).flatMap (starEnds f fuel)

/-- The positions where a match of `re` starting at position `s` can end, in a
text of `n` characters. -/
def Regexp.ends (n : Nat) : Regexp → List Char → List (List Char)
  | .NoMatch, _ => []
  | .EmptyMatch, s => [s]
  | .Literal r, s =>
    match s with
    | c :: rest => if c = r then [rest] else []
    | [] => []
  | .AnyCharNotNL, s =>
    match s with
    | c :: rest => if c = '\n' then [] else [rest]
    | [] => []
  | .BeginText, s => if s.length = n then [s] else []
  | .EndText, s => if s.isEmpty then [s] else []
  | .Capture _ sub, s => sub.ends n s
  | .Star _ sub, s => starEnds (sub.ends n) (s.length + 1) s
  | .Plus _ sub, s => (sub.ends n s).flatMap (starEnds (sub.ends n) (s.length + 1))
  | .Quest _ sub, s => s :: sub.ends n s
  | .Concat a b, s => (a.ends n s).flatMap (b.ends n)
  | .Alternate a b, s => a.ends n s ++ b.ends n s

/-- The method `(*Regexp).MatchString`: some match starts at some position of
`s`. -/
def Regexp.MatchString (re : Regexp) (s : String) : Bool :=
  s.data.tails.any (fun t => !(re.ends s.data.length t).isEmpty)

/-- The function `regexp.Compile` on the fragment.  A pattern outside the
fragment is answered with an error of the code `unmodelled`, which the library
does not have; no statement below is about such a pattern. -/
def Compile (expr : String) : Except RegexpError Regexp :=
  match Parse expr with
  | .ok re => .ok re
  | .err e => .error e
  | .unmodelled => .error { Code := "unmodelled", Expr := expr }

/-- The model of the library: the parser and matcher above, and every rune above
U+00FF taken as printable.  The library's tables are narrower (U+200B and U+2028,
for one, are not printable there), so above U+00FF `Quote` of this model may leave
a rune as it stands that the library escapes; no statement below evaluates it on
such a rune. -/
def goStdlib : Stdlib where
  Regexp := Regexp
  Compile := Compile
  reMatchString := Regexp.MatchString
  isPrintWide := fun _ => true

/-! ## The plugin -/

/-- The plugin type `RegexScheduling`, holding the logger. -/
structure RegexScheduling where
  log : Klog

/-- The constant `Name`: the name of the plugin in the registry. -/
def Name : String := "RegexScheduling"

/-- The constant `RegexAnnotationKey`: the pod annotation that defines the regex. -/
def RegexAnnotationKey : String := "scheduler.example.com/regex"

/-- The constructor `New`: the plugin and a nil error (`none`), whatever the
configuration bytes. -/
def New (klog : Klog) (jsonConfig : List (Fin 256)) : RegexScheduling × Option String :=
  (RegexScheduling.mk klog, none)

/-- The method `(*RegexScheduling).Filter`.  The two `fmt.Sprintf` calls are
written out: `%q` of a string is `strconv.Quote`, `%s` of an error its `Error()`
text. -/
def Filter (L : Stdlib) (r : RegexScheduling) (state : CycleState) (pod : Pod)
    (nodeInfo : NodeInfo) : Status :=
  let (regex, ok) := pod.GetAnnotations.index RegexAnnotationKey
  if !ok then
    { Code := StatusCode.Success }
  else
    let (matched, err) := L.MatchString regex nodeInfo.Node.GetName
    match err with
    | some err =>
      { Code := StatusCode.Error,
        Reason := "Failed to compile regex " ++ Quote L.isPrintWide regex ++ ": " ++ err.Error }
    | none =>
      if !matched then
        { Code := StatusCode.Unschedulable,
          Reason := "Node " ++ Quote L.isPrintWide nodeInfo.Node.GetName ++
            " does not match regex " ++ Quote L.isPrintWide regex }
      else
        { Code := StatusCode.Success }

/-- Substring containment of Go strings (`strings.Contains`): `sub` occurs in `s`
as a contiguous run of characters. -/
def Contains (s sub : String) : Prop := sub.data <:+: s.data

instance (s sub : String) : Decidable (Contains s sub) := by
  unfold Contains; infer_instance

/-! ## The call of `Filter` with its surroundings as explicit state -/

/-- What a call of `Filter` can reach: the logger of the receiver, the cycle
state, the annotations of the pod and the name of the node. -/
structure Host where
  log : Klog
  state : CycleState
  annotations : GoMap
  nodeName : String

/-- The read `pod.GetAnnotations()` as a step on the state: it answers the
annotations and leaves the state as it is. -/
def Host.getAnnotations (h : Host) : GoMap × Host := (h.annotations, h)

/-- The read `nodeInfo.Node().GetName()` as a step on the state. -/
def Host.getNodeName (h : Host) : String × Host := (h.nodeName, h)

/-- The method `Filter` in state-passing form: every statement of the source takes
the state before it and gives the state after it.  The source reads the
annotations once and the node name once or twice; it calls neither the logger
nor the cycle state and assigns to nothing it was given. -/
def FilterCall (L : Stdlib) (h0 : Host) : Status × Host :=
  let (annotations, h1) := h0.getAnnotations
  let (regex, ok) := annotations.index RegexAnnotationKey
  if !ok then
    ({ Code := StatusCode.Success }, h1)
  else
    let (name, h2) := h1.getNodeName
    let (matched, err) := L.MatchString regex name
    match err with
    | some err =>
      ({ Code := StatusCode.Error,
         Reason := "Failed to compile regex " ++ Quote L.isPrintWide regex ++ ": " ++ err.Error },
        h2)
    | none =>
      if !matched then
        let (name2, h3) := h2.getNodeName
        ({ Code := StatusCode.Unschedulable,
           Reason := "Node " ++ Quote L.isPrintWide name2 ++
             " does not match regex " ++ Quote L.isPrintWide regex }, h3)
      else
        ({ Code := StatusCode.Success }, h2)

/-! ## Notions the statements use -/

/-- The characters `Quote` writes for one rune. -/
def escaped (isPrintWide : Nat → Bool) (r : Char) : List Char :=
  appendEscapedRune isPrintWide [] r '"'

/-- A rune that `Quote` writes as it stands: printable and neither the double
quote nor the backslash. -/
def plainRune (isPrintWide : Nat → Bool) (r : Char) : Prop :=
  IsPrint isPrintWide r = true ∧ r ≠ '"' ∧ r ≠ '\\'

instance (T : Nat → Bool) (r : Char) : Decidable (plainRune T r) := by
  unfold plainRune; infer_instance

/-- A printable ASCII character other than the double quote and the backslash. -/
def plainASCII (c : Char) : Prop :=
  0x20 ≤ c.toNat ∧ c.toNat ≤ 0x7E ∧ c ≠ '"' ∧ c ≠ '\\'

instance (c : Char) : Decidable (plainASCII c) := by
  unfold plainASCII; infer_instance

/-- The characters `regexp.QuoteMeta` escapes: the metacharacters of the pattern
language. -/
def specialBytes : List Char :=
  ['\\', '.', '+', '*', '?', '(', ')', '|', '[', ']', '\x7b', '\x7d', '^', '$']

/-- The expression the parser builds for a pattern of literal characters. -/
def literalRegexp : List Char → Regexp
  | [] => .EmptyMatch
  | [c] => .Literal c
  | c :: d :: rest => .Concat (.Literal c) (literalRegexp (d :: rest))

/-! ## Lemmas on the map lookup and on the four ways out of `Filter` -/

theorem lookup_eq_none_of_absent (k : String) (l : List (String × String))
    (h : ∀ v, (k, v) ∉ l) : l.lookup k = none := by
  induction l with
  | nil => rfl
  | cons a rest ih =>
    obtain ⟨k1, v1⟩ := a
    have hne : k ≠ k1 := by
      intro hk
      exact h v1 (by simp [hk])
    have hrest : ∀ v, (k, v) ∉ rest := fun v hv => h v (List.mem_cons_of_mem _ hv)
    have hb : (k == k1) = false := by simpa using hne
    simp [List.lookup, hb, ih hrest]

theorem index_of_absent (m : GoMap) (k : String)
    (h : ∀ l, m = some l → ∀ v, (k, v) ∉ l) : m.index k = ("", false) := by
  cases m with
  | none => rfl
  | some l => simp [GoMap.index, lookup_eq_none_of_absent k l (h l rfl)]

theorem index_singleton (k p : String) : GoMap.index (some [(k, p)]) k = (p, true) := by
  simp [GoMap.index, List.lookup]

theorem index_snd_true (m : GoMap) (k : String) (h : (m.index k).2 = true) :
    ∃ l v, m = some l ∧ (k, v) ∈ l ∧ m.index k = (v, true) := by
  cases m with
  | none => simp [GoMap.index] at h
  | some l =>
    cases hl : l.lookup k with
    | none => simp [GoMap.index, hl] at h
    | some v =>
      refine ⟨l, v, rfl, ?_, by simp [GoMap.index, hl]⟩
      clear h
      induction l with
      | nil => simp [List.lookup] at hl
      | cons a rest ih =>
        obtain ⟨k1, v1⟩ := a
        by_cases hk : k = k1
        · subst hk
          simp [List.lookup] at hl
          simp [hl]
        · have : (k == k1) = false := by simpa using hk
          simp [List.lookup, this] at hl
          exact List.mem_cons_of_mem _ (ih hl)

theorem Filter_of_absent (L : Stdlib) (r : RegexScheduling) (state : CycleState) (pod : Pod)
    (nodeInfo : NodeInfo) (h : (pod.GetAnnotations.index RegexAnnotationKey).2 = false) :
    Filter L r state pod nodeInfo = { Code := StatusCode.Success, Reason := "" } := by
  unfold Filter
  rcases hx : pod.GetAnnotations.index RegexAnnotationKey with ⟨regex, ok⟩
  rw [hx] at h
  simp at h
  simp [h]

theorem Filter_of_error (L : Stdlib) (r : RegexScheduling) (state : CycleState) (pod : Pod)
    (nodeInfo : NodeInfo) (p : String) (e : RegexpError)
    (hkey : pod.GetAnnotations.index RegexAnnotationKey = (p, true))
    (hc : L.Compile p = .error e) :
    Filter L r state pod nodeInfo =
      { Code := StatusCode.Error,
        Reason := "Failed to compile regex " ++ Quote L.isPrintWide p ++ ": " ++ e.Error } := by
  simp [Filter, hkey, Stdlib.MatchString, hc]

theorem Filter_of_nomatch (L : Stdlib) (r : RegexScheduling) (state : CycleState) (pod : Pod)
    (nodeInfo : NodeInfo) (p : String) (re : L.Regexp)
    (hkey : pod.GetAnnotations.index RegexAnnotationKey = (p, true))
    (hc : L.Compile p = .ok re)
    (hm : L.reMatchString re nodeInfo.Node.GetName = false) :
    Filter L r state pod nodeInfo =
      { Code := StatusCode.Unschedulable,
        Reason := "Node " ++ Quote L.isPrintWide nodeInfo.Node.GetName ++
          " does not match regex " ++ Quote L.isPrintWide p } := by
  simp [Filter, hkey, Stdlib.MatchString, hc, hm]

theorem Filter_of_match (L : Stdlib) (r : RegexScheduling) (state : CycleState) (pod : Pod)
    (nodeInfo : NodeInfo) (p : String) (re : L.Regexp)
    (hkey : pod.GetAnnotations.index RegexAnnotationKey = (p, true))
    (hc : L.Compile p = .ok re)
    (hm : L.reMatchString re nodeInfo.Node.GetName = true) :
    Filter L r state pod nodeInfo = { Code := StatusCode.Success, Reason := "" } := by
  simp [Filter, hkey, Stdlib.MatchString, hc, hm]

/-! ## Lemmas on `Quote` and on containment -/

theorem appendEscapedRune_eq (T : Nat → Bool) (buf : List Char) (r q : Char) :
    appendEscapedRune T buf r q = buf ++ appendEscapedRune T [] r q := by
  unfold appendEscapedRune
  split
  · simp
  · split
    · simp
    · split <;> simp
      split
      · simp
      · split <;> simp

theorem foldl_appendEscapedRune (T : Nat → Bool) (l buf : List Char) :
    l.foldl (fun buf r => appendEscapedRune T buf r '"') buf = buf ++ l.flatMap (escaped T) := by
  induction l generalizing buf with
  | nil => simp
  | cons c rest ih =>
    simp only [List.foldl_cons, List.flatMap_cons]
    rw [ih, appendEscapedRune_eq]
    simp [escaped]

theorem Quote_data (T : Nat → Bool) (s : String) :
    (Quote T s).data = '"' :: (s.data.flatMap (escaped T) ++ ['"']) := by
  simp [Quote, foldl_appendEscapedRune]

theorem escaped_of_plain (T : Nat → Bool) (r : Char) (h : plainRune T r) :
    escaped T r = [r] := by
  obtain ⟨hp, hq, hb⟩ := h
  simp [escaped, appendEscapedRune, hp, hq, hb]

theorem flatMap_escaped_of_plain (T : Nat → Bool) (l : List Char)
    (h : ∀ c ∈ l, plainRune T c) : l.flatMap (escaped T) = l := by
  induction l with
  | nil => rfl
  | cons c rest ih =>
    simp only [List.flatMap_cons]
    rw [escaped_of_plain T c (h c (List.mem_cons_self _ _)),
      ih (fun d hd => h d (List.mem_cons_of_mem _ hd))]
    rfl

theorem Quote_of_plain (T : Nat → Bool) (s : String) (h : ∀ c ∈ s.data, plainRune T c) :
    Quote T s = "\"" ++ s ++ "\"" := by
  apply String.ext
  rw [Quote_data, flatMap_escaped_of_plain T s.data h]
  simp

theorem Contains_refl (s : String) : Contains s s := List.infix_refl _

theorem Contains_trans {a b c : String} (h1 : Contains a b) (h2 : Contains b c) :
    Contains a c := List.IsInfix.trans h2 h1

theorem Contains_append_left (a b : String) : Contains (a ++ b) a := by
  unfold Contains
  rw [String.data_append]
  exact (List.prefix_append _ _).isInfix

theorem Contains_append_right (a b : String) : Contains (a ++ b) b := by
  unfold Contains
  rw [String.data_append]
  exact (List.suffix_append _ _).isInfix

theorem Contains_Quote_of_plain (T : Nat → Bool) (s : String)
    (h : ∀ c ∈ s.data, plainRune T c) : Contains (Quote T s) s := by
  rw [Quote_of_plain T s h]
  exact Contains_trans (Contains_append_left _ _) (Contains_append_right _ _)

theorem ne_empty_of_append_left (a b : String) (h : a ≠ "") : a ++ b ≠ "" := by
  intro hab
  apply h
  have := congrArg String.data hab
  rw [String.data_append] at this
  apply String.ext
  simpa using (List.append_eq_nil.mp this).1

/-- The case analysis behind the claims on the status code: `Filter` answers by
the lookup of the key, the outcome of compiling and the outcome of matching. -/
theorem Filter_cases (L : Stdlib) (r : RegexScheduling) (state : CycleState)
    (pod : Pod) (nodeInfo : NodeInfo) :
    ((pod.GetAnnotations.index RegexAnnotationKey).2 = false ∧
      Filter L r state pod nodeInfo = { Code := StatusCode.Success, Reason := "" }) ∨
    (∃ p e, pod.GetAnnotations.index RegexAnnotationKey = (p, true) ∧
      L.Compile p = .error e ∧
      Filter L r state pod nodeInfo =
        { Code := StatusCode.Error,
          Reason := "Failed to compile regex " ++ Quote L.isPrintWide p ++ ": " ++ e.Error }) ∨
    (∃ p re, pod.GetAnnotations.index RegexAnnotationKey = (p, true) ∧
      L.Compile p = .ok re ∧ L.reMatchString re nodeInfo.Node.GetName = false ∧
      Filter L r state pod nodeInfo =
        { Code := StatusCode.Unschedulable,
          Reason := "Node " ++ Quote L.isPrintWide nodeInfo.Node.GetName ++
            " does not match regex " ++ Quote L.isPrintWide p }) ∨
    (∃ p re, pod.GetAnnotations.index RegexAnnotationKey = (p, true) ∧
      L.Compile p = .ok re ∧ L.reMatchString re nodeInfo.Node.GetName = true ∧
      Filter L r state pod nodeInfo = { Code := StatusCode.Success, Reason := "" }) := by
  rcases hx : pod.GetAnnotations.index RegexAnnotationKey with ⟨p, ok⟩
  cases ok with
  | false => exact Or.inl ⟨rfl, Filter_of_absent L r state pod nodeInfo (by rw [hx])⟩
  | true =>
    right
    cases hc : L.Compile p with
    | error e => exact Or.inl ⟨p, e, rfl, hc, Filter_of_error L r state pod nodeInfo p e hx hc⟩
    | ok re =>
      right
      cases hm : L.reMatchString re nodeInfo.Node.GetName with
      | false =>
        exact Or.inl ⟨p, re, rfl, hc, hm, Filter_of_nomatch L r state pod nodeInfo p re hx hc hm⟩
      | true =>
        exact Or.inr ⟨p, re, rfl, hc, hm, Filter_of_match L r state pod nodeInfo p re hx hc hm⟩

/-! ## Lemmas on the parser and the matcher for literal patterns -/

theorem parseStep_literal (w : String) (c : Char) (t : List Char) (p : Parser)
    (lr : Option (List Char)) (hc : c ∉ specialBytes) :
    parseStep w c t p lr = .next { p with stack := .re (.Literal c) :: p.stack } none false := by
  simp only [specialBytes, List.mem_cons, List.mem_singleton, not_or, List.not_mem_nil,
    not_false_eq_true, and_true] at hc
  obtain ⟨h1, h2, h3, h4, h5, h6, h7, h8, h9, h10, h11, h12, h13, h14⟩ := hc
  simp [parseStep, repeatOpOf, h1, h2, h3, h4, h5, h6, h7, h8, h9, h11, h13, h14]

theorem parseLoop_literal (w : String) (l : List Char) (hl : ∀ c ∈ l, c ∉ specialBytes)
    (p : Parser) (lr : Option (List Char)) :
    parseLoop w l p lr false =
      Parser.finish { p with stack := (l.reverse.map fun c => StackItem.re (.Literal c)) ++ p.stack }
        w := by
  induction l generalizing p lr with
  | nil => simp [parseLoop]
  | cons c rest ih =>
    rw [parseLoop, parseStep_literal w c rest p lr (hl c (List.mem_cons_self _ _))]
    simp only
    rw [ih (fun d hd => hl d (List.mem_cons_of_mem _ hd))]
    simp

theorem takeWhile_isRe_map (xs : List Regexp) :
    (xs.map StackItem.re).takeWhile StackItem.isRe = xs.map StackItem.re := by
  induction xs with
  | nil => rfl
  | cons x rest ih => simp [List.takeWhile, StackItem.isRe, ih]

theorem dropWhile_isRe_map (xs : List Regexp) :
    (xs.map StackItem.re).dropWhile StackItem.isRe = [] := by
  induction xs with
  | nil => rfl
  | cons x rest ih => simp [List.dropWhile, StackItem.isRe, ih]

theorem regexps_map (xs : List Regexp) : StackItem.regexps (xs.map StackItem.re) = xs := by
  induction xs with
  | nil => rfl
  | cons x rest ih => simp [StackItem.regexps, ih]

theorem collapse_literals (init : List Char) (c : Char) :
    collapse .Concat (init.map Regexp.Literal) (.Literal c) = literalRegexp (init ++ [c]) := by
  induction init with
  | nil => rfl
  | cons d rest ih =>
    cases rest with
    | nil => rfl
    | cons e rest2 =>
      simp only [List.map_cons, collapse, List.cons_append, literalRegexp] at ih ⊢
      rw [ih]
      rfl

theorem concat_of_regexps (x : Regexp) (xs : List Regexp) (n : Nat) :
    Parser.concat { stack := (x :: xs).map StackItem.re, numCap := n } =
      { stack := [.re (collapse .Concat xs.reverse x)], numCap := n } := by
  simp only [Parser.concat, takeWhile_isRe_map, dropWhile_isRe_map, regexps_map]

theorem closeAlternation_singleton (x : Regexp) (n : Nat) :
    Parser.alternate (Parser.swapVerticalBar { stack := [.re x], numCap := n }).1 =
      { stack := [.re x], numCap := n } ∧
    (Parser.swapVerticalBar { stack := [.re x], numCap := n }).2 = false := by
  simp [Parser.swapVerticalBar, Parser.alternate, List.takeWhile, List.dropWhile,
    StackItem.isRe, StackItem.regexps, collapse]

theorem finish_literals (w : String) (l : List Char) (n : Nat) :
    Parser.finish { stack := l.reverse.map fun c => StackItem.re (.Literal c), numCap := n } w =
      .ok (literalRegexp l) := by
  rcases List.eq_nil_or_concat l with rfl | ⟨init, c, rfl⟩
  · rfl
  · have hst : ((init.concat c).reverse.map fun c => StackItem.re (.Literal c)) =
        ((Regexp.Literal c) :: init.reverse.map Regexp.Literal).map StackItem.re := by
      simp
    rw [hst]
    unfold Parser.finish Parser.closeAlternation
    rw [concat_of_regexps]
    simp only [(closeAlternation_singleton _ n).2]
    simp only [← List.map_reverse, List.reverse_reverse, collapse_literals,
      List.concat_eq_append]
    simp [(closeAlternation_singleton _ n).1]

theorem Parse_literal (p : String) (hl : ∀ c ∈ p.data, c ∉ specialBytes) :
    Parse p = .ok (literalRegexp p.data) := by
  unfold Parse
  rw [parseLoop_literal p p.data hl]
  simpa using finish_literals p p.data 0

theorem ends_literalRegexp (n : Nat) (l : List Char) :
    ∀ t : List Char,
      (literalRegexp l).ends n t = if l <+: t then [t.drop l.length] else [] := by
  induction l with
  | nil => intro t; simp [literalRegexp, Regexp.ends]
  | cons c rest ih =>
    intro t
    cases rest with
    | nil =>
      cases t with
      | nil => simp [literalRegexp, Regexp.ends]
      | cons d t1 =>
        by_cases h : d = c
        · subst h
          simp [literalRegexp, Regexp.ends, List.cons_prefix_cons]
        · have h2 : ¬ c = d := fun e => h e.symm
          simp [literalRegexp, Regexp.ends, List.cons_prefix_cons, h, h2]
    | cons e rest2 =>
      cases t with
      | nil => simp [literalRegexp, Regexp.ends]
      | cons d t1 =>
        by_cases h : d = c
        · subst h
          simp only [literalRegexp, Regexp.ends, if_true, List.flatMap_cons, List.flatMap_nil,
            List.append_nil, ih t1, List.cons_prefix_cons, true_and, List.length_cons,
            List.drop_succ_cons]
        · have h2 : ¬ c = d := fun e => h e.symm
          simp [literalRegexp, Regexp.ends, List.cons_prefix_cons, h, h2]

theorem MatchString_literalRegexp (l : List Char) (s : String) :
    (literalRegexp l).MatchString s = true ↔ l <:+: s.data := by
  unfold Regexp.MatchString
  rw [List.any_eq_true, List.infix_iff_prefix_suffix]
  constructor
  · rintro ⟨t, ht, hne⟩
    refine ⟨t, ?_, (List.mem_tails _ _).mp ht⟩
    rw [ends_literalRegexp] at hne
    by_contra hp
    simp [hp] at hne
  · rintro ⟨t, hp, hs⟩
    refine ⟨t, (List.mem_tails _ _).mpr hs, ?_⟩
    rw [ends_literalRegexp]
    simp [hp]

/-! ## Lemmas for the state-passing form, plain ASCII text and the empty pattern -/

theorem plainRune_of_plainASCII (T : Nat → Bool) (c : Char) (h : plainASCII c) :
    plainRune T c := by
  obtain ⟨h1, h2, h3, h4⟩ := h
  refine ⟨?_, h3, h4⟩
  have h5 : c.toNat ≤ 0xFF := by omega
  simp [IsPrint, h1, h2, h5]

theorem FilterCall_eq (L : Stdlib) (h : Host) :
    FilterCall L h = (Filter L ⟨h.log⟩ h.state ⟨h.annotations⟩ ⟨⟨h.nodeName⟩⟩, h) := by
  unfold FilterCall Filter
  simp only [Host.getAnnotations, Host.getNodeName, Pod.GetAnnotations, NodeInfo.Node,
    Node.GetName]
  rcases h.annotations.index RegexAnnotationKey with ⟨regex, ok⟩
  cases ok with
  | false => rfl
  | true =>
    simp only [Bool.not_true, Bool.false_eq_true, if_false]
    rcases L.MatchString regex h.nodeName with ⟨matched, err⟩
    cases err with
    | some e => rfl
    | none =>
      cases matched <;> rfl

theorem MatchString_EmptyMatch (s : String) : Regexp.EmptyMatch.MatchString s = true :=
  (MatchString_literalRegexp [] s).mpr List.nil_infix

/-! ## The claims -/

/-- C1. A pod whose annotations do not hold the key `scheduler.example.com/regex`
(the nil map and the empty map included, and whatever other keys the map holds)
passes the filter on every node: the status is `Success` with the empty reason,
for every node name. -/
theorem Filter_without_constraint_key (L : Stdlib) (r : RegexScheduling) (state : CycleState)
    (pod : Pod) (nodeInfo : NodeInfo)
    (h : ∀ l, pod.GetAnnotations = some l → ∀ v, (RegexAnnotationKey, v) ∉ l) :
    Filter L r state pod nodeInfo = { Code := StatusCode.Success, Reason := "" } := by
  apply Filter_of_absent
  rw [index_of_absent _ _ h]

/-- Instances of C1: the nil map, the empty map, and a map whose only key differs
from the constraint key in the case of its letters, each with the empty node
name. -/
theorem Filter_without_constraint_key_witness :
    Filter goStdlib ⟨⟨[]⟩⟩ ⟨[]⟩ ⟨none⟩ ⟨⟨""⟩⟩ = { Code := StatusCode.Success, Reason := "" } ∧
    Filter goStdlib ⟨⟨[]⟩⟩ ⟨[]⟩ ⟨some []⟩ ⟨⟨""⟩⟩ = { Code := StatusCode.Success, Reason := "" } ∧
    Filter goStdlib ⟨⟨[]⟩⟩ ⟨[]⟩ ⟨some [("Scheduler.Example.Com/Regex", "(")]⟩ ⟨⟨""⟩⟩ =
      { Code := StatusCode.Success, Reason := "" } :=
  ⟨Filter_without_constraint_key _ _ _ _ _ (by intro l hl; cases hl),
   Filter_without_constraint_key _ _ _ _ _ (by intro l hl v hv; cases hl; cases hv),
   Filter_without_constraint_key _ _ _ _ _ (by
     intro l hl v hv
     cases hl
     simp [RegexAnnotationKey] at hv)⟩

/-- C2, as amended.  When the constraint `p` compiles and does not match the node
name, the status is `Unschedulable` and its reason is not empty; the reason
contains the Go-quoted (`%q`) forms of the node name and of the pattern, and it
contains the node name, respectively the pattern, as it stands whenever all its
characters are printable and none is a double quote or a backslash. -/
theorem Filter_nomatch_unschedulable (L : Stdlib) (r : RegexScheduling) (state : CycleState)
    (pod : Pod) (nodeInfo : NodeInfo) (p : String) (re : L.Regexp)
    (hkey : pod.GetAnnotations.index RegexAnnotationKey = (p, true))
    (hc : L.Compile p = .ok re)
    (hm : L.reMatchString re nodeInfo.Node.GetName = false) :
    (Filter L r state pod nodeInfo).Code = StatusCode.Unschedulable ∧
    (Filter L r state pod nodeInfo).Reason ≠ "" ∧
    Contains (Filter L r state pod nodeInfo).Reason (Quote L.isPrintWide nodeInfo.Node.GetName) ∧
    Contains (Filter L r state pod nodeInfo).Reason (Quote L.isPrintWide p) ∧
    ((∀ c ∈ nodeInfo.Node.GetName.data, plainRune L.isPrintWide c) →
      Contains (Filter L r state pod nodeInfo).Reason nodeInfo.Node.GetName) ∧
    ((∀ c ∈ p.data, plainRune L.isPrintWide c) →
      Contains (Filter L r state pod nodeInfo).Reason p) := by
  rw [Filter_of_nomatch L r state pod nodeInfo p re hkey hc hm]
  have hs : Contains ("Node " ++ Quote L.isPrintWide nodeInfo.Node.GetName ++
      " does not match regex " ++ Quote L.isPrintWide p)
      (Quote L.isPrintWide nodeInfo.Node.GetName) :=
    Contains_trans (Contains_append_left _ _)
      (Contains_trans (Contains_append_left _ _) (Contains_append_right _ _))
  have hp : Contains ("Node " ++ Quote L.isPrintWide nodeInfo.Node.GetName ++
      " does not match regex " ++ Quote L.isPrintWide p) (Quote L.isPrintWide p) :=
    Contains_append_right _ _
  refine ⟨rfl, ?_, hs, hp, ?_, ?_⟩
  · simp only [String.append_assoc]
    exact ne_empty_of_append_left _ _ (by decide)
  · intro h
    exact Contains_trans hs (Contains_Quote_of_plain _ _ h)
  · intro h
    exact Contains_trans hp (Contains_Quote_of_plain _ _ h)

/-- The instance of C2 named in the claim: pattern `^node-b`, node `node-abc`. -/
theorem Filter_nomatch_unschedulable_witness :
    (Filter goStdlib ⟨⟨[]⟩⟩ ⟨[]⟩ ⟨some [(RegexAnnotationKey, "^node-b")]⟩ ⟨⟨"node-abc"⟩⟩).Code =
      StatusCode.Unschedulable ∧
    Contains (Filter goStdlib ⟨⟨[]⟩⟩ ⟨[]⟩ ⟨some [(RegexAnnotationKey, "^node-b")]⟩
      ⟨⟨"node-abc"⟩⟩).Reason "node-abc" ∧
    Contains (Filter goStdlib ⟨⟨[]⟩⟩ ⟨[]⟩ ⟨some [(RegexAnnotationKey, "^node-b")]⟩
      ⟨⟨"node-abc"⟩⟩).Reason "^node-b" :=
  have h := Filter_nomatch_unschedulable goStdlib ⟨⟨[]⟩⟩ ⟨[]⟩
    ⟨some [(RegexAnnotationKey, "^node-b")]⟩ ⟨⟨"node-abc"⟩⟩ "^node-b"
    (.Concat .BeginText (.Concat (.Literal 'n') (.Concat (.Literal 'o') (.Concat (.Literal 'd')
      (.Concat (.Literal 'e') (.Concat (.Literal '-') (.Literal 'b')))))))
    (index_singleton _ _) rfl (by decide)
  ⟨h.1, h.2.2.2.2.1 (by decide), h.2.2.2.2.2 (by decide)⟩

/-- C2 as stated fails: the pattern `^node-"b"` is valid and does not match the
node `node-abc`, the status is `Unschedulable`, and the reason, which quotes the
pattern as `"^node-\"b\""`, does not contain the pattern itself. -/
theorem Filter_nomatch_reason_counterexample :
    goStdlib.MatchString "^node-\"b\"" "node-abc" = (false, none) ∧
    (Filter goStdlib ⟨⟨[]⟩⟩ ⟨[]⟩ ⟨some [(RegexAnnotationKey, "^node-\"b\"")]⟩
      ⟨⟨"node-abc"⟩⟩).Code = StatusCode.Unschedulable ∧
    (Filter goStdlib ⟨⟨[]⟩⟩ ⟨[]⟩ ⟨some [(RegexAnnotationKey, "^node-\"b\"")]⟩
      ⟨⟨"node-abc"⟩⟩).Reason = "Node \"node-abc\" does not match regex \"^node-\\\"b\\\"\"" ∧
    ¬ Contains (Filter goStdlib ⟨⟨[]⟩⟩ ⟨[]⟩ ⟨some [(RegexAnnotationKey, "^node-\"b\"")]⟩
      ⟨⟨"node-abc"⟩⟩).Reason "^node-\"b\"" := by
  decide

/-- C3, as amended.  When the constraint `p` does not compile, the status is
`Error` on every node and its reason is not empty; the reason contains the
Go-quoted (`%q`) form of the pattern, and the pattern as it stands whenever all
its characters are printable and none is a double quote or a backslash. -/
theorem Filter_invalid_pattern_error (L : Stdlib) (r : RegexScheduling) (state : CycleState)
    (pod : Pod) (nodeInfo : NodeInfo) (p : String) (e : RegexpError)
    (hkey : pod.GetAnnotations.index RegexAnnotationKey = (p, true))
    (hc : L.Compile p = .error e) :
    (Filter L r state pod nodeInfo).Code = StatusCode.Error ∧
    (Filter L r state pod nodeInfo).Reason ≠ "" ∧
    Contains (Filter L r state pod nodeInfo).Reason (Quote L.isPrintWide p) ∧
    ((∀ c ∈ p.data, plainRune L.isPrintWide c) →
      Contains (Filter L r state pod nodeInfo).Reason p) := by
  rw [Filter_of_error L r state pod nodeInfo p e hkey hc]
  have hp : Contains ("Failed to compile regex " ++ Quote L.isPrintWide p ++ ": " ++ e.Error)
      (Quote L.isPrintWide p) :=
    Contains_trans (Contains_append_left _ _)
      (Contains_trans (Contains_append_left _ _) (Contains_append_right _ _))
  refine ⟨rfl, ?_, hp, ?_⟩
  · simp only [String.append_assoc]
    exact ne_empty_of_append_left _ _ (by decide)
  · intro h
    exact Contains_trans hp (Contains_Quote_of_plain _ _ h)

/-- The instances of C3 named in the claim: the patterns `(` and `(unclosed`. -/
theorem Filter_invalid_pattern_error_witness :
    ((Filter goStdlib ⟨⟨[]⟩⟩ ⟨[]⟩ ⟨some [(RegexAnnotationKey, "(")]⟩ ⟨⟨"node-abc"⟩⟩).Code =
        StatusCode.Error ∧
      Contains (Filter goStdlib ⟨⟨[]⟩⟩ ⟨[]⟩ ⟨some [(RegexAnnotationKey, "(")]⟩
        ⟨⟨"node-abc"⟩⟩).Reason "(") ∧
    ((Filter goStdlib ⟨⟨[]⟩⟩ ⟨[]⟩ ⟨some [(RegexAnnotationKey, "(unclosed")]⟩ ⟨⟨""⟩⟩).Code =
        StatusCode.Error ∧
      Contains (Filter goStdlib ⟨⟨[]⟩⟩ ⟨[]⟩ ⟨some [(RegexAnnotationKey, "(unclosed")]⟩
        ⟨⟨""⟩⟩).Reason "(unclosed") :=
  have h1 := Filter_invalid_pattern_error goStdlib ⟨⟨[]⟩⟩ ⟨[]⟩
    ⟨some [(RegexAnnotationKey, "(")]⟩ ⟨⟨"node-abc"⟩⟩ "("
    { Code := ErrMissingParen, Expr := "(" } (index_singleton _ _) rfl
  have h2 := Filter_invalid_pattern_error goStdlib ⟨⟨[]⟩⟩ ⟨[]⟩
    ⟨some [(RegexAnnotationKey, "(unclosed")]⟩ ⟨⟨""⟩⟩ "(unclosed"
    { Code := ErrMissingParen, Expr := "(unclosed" } (index_singleton _ _) rfl
  ⟨⟨h1.1, h1.2.2.2 (by decide)⟩, ⟨h2.1, h2.2.2.2 (by decide)⟩⟩

/-- C3 as stated fails: the pattern `a"**` is invalid (a repetition operator
follows another one), the status is `Error`, and the reason, which quotes the
pattern as `"a\"**"` and reports the fragment `**`, does not contain the pattern
itself. -/
theorem Filter_error_reason_counterexample :
    goStdlib.Compile "a\"**" = .error { Code := ErrInvalidRepeatOp, Expr := "**" } ∧
    (Filter goStdlib ⟨⟨[]⟩⟩ ⟨[]⟩ ⟨some [(RegexAnnotationKey, "a\"**")]⟩
      ⟨⟨"node-abc"⟩⟩).Code = StatusCode.Error ∧
    (Filter goStdlib ⟨⟨[]⟩⟩ ⟨[]⟩ ⟨some [(RegexAnnotationKey, "a\"**")]⟩
      ⟨⟨"node-abc"⟩⟩).Reason =
      "Failed to compile regex \"a\\\"**\": error parsing regexp: invalid nested repetition operator: \x60**\x60" ∧
    ¬ Contains (Filter goStdlib ⟨⟨[]⟩⟩ ⟨[]⟩ ⟨some [(RegexAnnotationKey, "a\"**")]⟩
      ⟨⟨"node-abc"⟩⟩).Reason "a\"**" :=
  ⟨rfl, by decide, rfl, by decide⟩

/-- C4. When the constraint `p` compiles and matches somewhere within the node
name, the status is `Success` with the empty reason. -/
theorem Filter_match_success (L : Stdlib) (r : RegexScheduling) (state : CycleState)
    (pod : Pod) (nodeInfo : NodeInfo) (p : String) (re : L.Regexp)
    (hkey : pod.GetAnnotations.index RegexAnnotationKey = (p, true))
    (hc : L.Compile p = .ok re)
    (hm : L.reMatchString re nodeInfo.Node.GetName = true) :
    Filter L r state pod nodeInfo = { Code := StatusCode.Success, Reason := "" } :=
  Filter_of_match L r state pod nodeInfo p re hkey hc hm

/-- The instance of C4 named in the claim: pattern `^node-a`, node `node-abc`. -/
theorem Filter_match_success_witness :
    Filter goStdlib ⟨⟨[]⟩⟩ ⟨[]⟩ ⟨some [(RegexAnnotationKey, "^node-a")]⟩ ⟨⟨"node-abc"⟩⟩ =
      { Code := StatusCode.Success, Reason := "" } :=
  Filter_match_success goStdlib ⟨⟨[]⟩⟩ ⟨[]⟩ ⟨some [(RegexAnnotationKey, "^node-a")]⟩
    ⟨⟨"node-abc"⟩⟩ "^node-a"
    (.Concat .BeginText (.Concat (.Literal 'n') (.Concat (.Literal 'o') (.Concat (.Literal 'd')
      (.Concat (.Literal 'e') (.Concat (.Literal '-') (.Literal 'a')))))))
    (index_singleton _ _) rfl (by decide)

/-- C5. The status code is `Error` exactly when the constraint key is present
and its value does not compile; on every other input (key absent, any node name)
the code is `Success` or `Unschedulable`.  The empty pattern compiles in the
model of the library, so with it the code is never `Error`, whatever the node
name. -/
theorem Filter_error_iff_invalid_pattern (L : Stdlib) (r : RegexScheduling)
    (state : CycleState) (pod : Pod) (nodeInfo : NodeInfo) :
    ((Filter L r state pod nodeInfo).Code = StatusCode.Error ↔
      ∃ p e, pod.GetAnnotations.index RegexAnnotationKey = (p, true) ∧
        L.Compile p = .error e) ∧
    ((¬ ∃ p e, pod.GetAnnotations.index RegexAnnotationKey = (p, true) ∧
        L.Compile p = .error e) →
      (Filter L r state pod nodeInfo).Code = StatusCode.Success ∨
      (Filter L r state pod nodeInfo).Code = StatusCode.Unschedulable) ∧
    (∀ s : String,
      (Filter goStdlib r state ⟨some [(RegexAnnotationKey, "")]⟩ ⟨⟨s⟩⟩).Code ≠
        StatusCode.Error) := by
  have key : ∀ (L : Stdlib) (pod : Pod) (nodeInfo : NodeInfo),
      ((Filter L r state pod nodeInfo).Code = StatusCode.Error ↔
        ∃ p e, pod.GetAnnotations.index RegexAnnotationKey = (p, true) ∧
          L.Compile p = .error e) ∧
      ((¬ ∃ p e, pod.GetAnnotations.index RegexAnnotationKey = (p, true) ∧
          L.Compile p = .error e) →
        (Filter L r state pod nodeInfo).Code = StatusCode.Success ∨
        (Filter L r state pod nodeInfo).Code = StatusCode.Unschedulable) := by
    intro L pod nodeInfo
    rcases Filter_cases L r state pod nodeInfo with
      ⟨ha, hf⟩ | ⟨p, e, hk, hc, hf⟩ | ⟨p, re, hk, hc, _, hf⟩ | ⟨p, re, hk, hc, _, hf⟩
    · rw [hf]
      refine ⟨⟨(fun h => nomatch h), ?_⟩, fun _ => Or.inl rfl⟩
      rintro ⟨p, e, hk, _⟩
      rw [hk] at ha
      cases ha
    · rw [hf]
      exact ⟨⟨fun _ => ⟨p, e, hk, hc⟩, fun _ => rfl⟩, fun h => absurd ⟨p, e, hk, hc⟩ h⟩
    · rw [hf]
      refine ⟨⟨(fun h => nomatch h), ?_⟩, fun _ => Or.inr rfl⟩
      rintro ⟨q, e, hq, hqc⟩
      rw [hk] at hq
      cases hq
      rw [hc] at hqc
      cases hqc
    · rw [hf]
      refine ⟨⟨(fun h => nomatch h), ?_⟩, fun _ => Or.inl rfl⟩
      rintro ⟨q, e, hq, hqc⟩
      rw [hk] at hq
      cases hq
      rw [hc] at hqc
      cases hqc
  refine ⟨(key L pod nodeInfo).1, (key L pod nodeInfo).2, ?_⟩
  intro s hs
  obtain ⟨p, e, hk, hc⟩ := (key goStdlib ⟨some [(RegexAnnotationKey, "")]⟩ ⟨⟨s⟩⟩).1.mp hs
  have hp : p = "" := by
    have := index_singleton RegexAnnotationKey ""
    simp only [Pod.GetAnnotations] at hk
    rw [this] at hk
    cases hk
    rfl
  subst hp
  cases hc

/-- C7. Every status `Filter` returns has one of the codes `Success`,
`Unschedulable`, `Error`; its reason is empty when the code is `Success` and not
empty when the code is `Unschedulable` or `Error`. -/
theorem Filter_status_invariant (L : Stdlib) (r : RegexScheduling) (state : CycleState)
    (pod : Pod) (nodeInfo : NodeInfo) :
    ((Filter L r state pod nodeInfo).Code = StatusCode.Success ∨
      (Filter L r state pod nodeInfo).Code = StatusCode.Unschedulable ∨
      (Filter L r state pod nodeInfo).Code = StatusCode.Error) ∧
    ((Filter L r state pod nodeInfo).Code = StatusCode.Success →
      (Filter L r state pod nodeInfo).Reason = "") ∧
    ((Filter L r state pod nodeInfo).Code = StatusCode.Unschedulable ∨
      (Filter L r state pod nodeInfo).Code = StatusCode.Error →
      (Filter L r state pod nodeInfo).Reason ≠ "") := by
  rcases Filter_cases L r state pod nodeInfo with
    ⟨_, hf⟩ | ⟨p, e, _, _, hf⟩ | ⟨p, re, _, _, _, hf⟩ | ⟨p, re, _, _, _, hf⟩
  · rw [hf]
    exact ⟨Or.inl rfl, fun _ => rfl, fun h => by rcases h with h | h <;> cases h⟩
  · rw [hf]
    refine ⟨Or.inr (Or.inr rfl), (fun h => nomatch h), fun _ => ?_⟩
    simp only [String.append_assoc]
    exact ne_empty_of_append_left _ _ (by decide)
  · rw [hf]
    refine ⟨Or.inr (Or.inl rfl), (fun h => nomatch h), fun _ => ?_⟩
    simp only [String.append_assoc]
    exact ne_empty_of_append_left _ _ (by decide)
  · rw [hf]
    exact ⟨Or.inl rfl, fun _ => rfl, fun h => by rcases h with h | h <;> cases h⟩

/-- C8. When the constraint `p` does not compile, with the compiler's error `e`,
the status is `Error` and its reason is `Failed to compile regex `, the Go-quoted
(`%q`) pattern, `: `, and the message of `e`; the message is the end of the
reason. -/
theorem Filter_error_reason (L : Stdlib) (r : RegexScheduling) (state : CycleState)
    (pod : Pod) (nodeInfo : NodeInfo) (p : String) (e : RegexpError)
    (hkey : pod.GetAnnotations.index RegexAnnotationKey = (p, true))
    (hc : L.Compile p = .error e) :
    (Filter L r state pod nodeInfo).Code = StatusCode.Error ∧
    (Filter L r state pod nodeInfo).Reason =
      "Failed to compile regex " ++ Quote L.isPrintWide p ++ ": " ++ e.Error ∧
    e.Error.data <:+ (Filter L r state pod nodeInfo).Reason.data := by
  rw [Filter_of_error L r state pod nodeInfo p e hkey hc]
  refine ⟨rfl, rfl, ?_⟩
  show e.Error.data <:+
    ("Failed to compile regex " ++ Quote L.isPrintWide p ++ ": " ++ e.Error).data
  rw [String.data_append]
  exact List.suffix_append _ _

/-- The instance of C8 named in the spec: pattern `(unclosed`, node `node-abc`. -/
theorem Filter_error_reason_witness :
    (Filter goStdlib ⟨⟨[]⟩⟩ ⟨[]⟩ ⟨some [(RegexAnnotationKey, "(unclosed")]⟩
      ⟨⟨"node-abc"⟩⟩).Reason =
      "Failed to compile regex \"(unclosed\": error parsing regexp: missing closing ): \x60(unclosed\x60" :=
  (Filter_error_reason goStdlib ⟨⟨[]⟩⟩ ⟨[]⟩ ⟨some [(RegexAnnotationKey, "(unclosed")]⟩
    ⟨⟨"node-abc"⟩⟩ "(unclosed" { Code := ErrMissingParen, Expr := "(unclosed" }
    (index_singleton _ _) rfl).2.1.trans (by decide)

/-- C9. `Filter` is deterministic: two calls with the same annotations and the
same node name return the same status, code and reason, whatever the plugin
value and the cycle state of each call. -/
theorem Filter_deterministic (L : Stdlib) (r1 r2 : RegexScheduling) (state1 state2 : CycleState)
    (pod1 pod2 : Pod) (nodeInfo1 nodeInfo2 : NodeInfo)
    (hpod : pod1.GetAnnotations = pod2.GetAnnotations)
    (hnode : nodeInfo1.Node.GetName = nodeInfo2.Node.GetName) :
    (Filter L r1 state1 pod1 nodeInfo1).Code = (Filter L r2 state2 pod2 nodeInfo2).Code ∧
    (Filter L r1 state1 pod1 nodeInfo1).Reason = (Filter L r2 state2 pod2 nodeInfo2).Reason := by
  have h : Filter L r1 state1 pod1 nodeInfo1 = Filter L r2 state2 pod2 nodeInfo2 := by
    unfold Filter
    rw [hpod, hnode]
  rw [h]
  exact ⟨rfl, rfl⟩

/-- An instance of C9: the same pod and node, filtered by two plugin values in
two cycle states. -/
theorem Filter_deterministic_witness :
    (Filter goStdlib ⟨⟨[]⟩⟩ ⟨[]⟩ ⟨some [(RegexAnnotationKey, "^node-b")]⟩ ⟨⟨"node-abc"⟩⟩).Code =
      (Filter goStdlib ⟨⟨["started"]⟩⟩ ⟨[("k", "v")]⟩ ⟨some [(RegexAnnotationKey, "^node-b")]⟩
        ⟨⟨"node-abc"⟩⟩).Code ∧
    (Filter goStdlib ⟨⟨[]⟩⟩ ⟨[]⟩ ⟨some [(RegexAnnotationKey, "^node-b")]⟩ ⟨⟨"node-abc"⟩⟩).Reason =
      (Filter goStdlib ⟨⟨["started"]⟩⟩ ⟨[("k", "v")]⟩ ⟨some [(RegexAnnotationKey, "^node-b")]⟩
        ⟨⟨"node-abc"⟩⟩).Reason :=
  Filter_deterministic goStdlib ⟨⟨[]⟩⟩ ⟨⟨["started"]⟩⟩ ⟨[]⟩ ⟨[("k", "v")]⟩
    ⟨some [(RegexAnnotationKey, "^node-b")]⟩ ⟨some [(RegexAnnotationKey, "^node-b")]⟩
    ⟨⟨"node-abc"⟩⟩ ⟨⟨"node-abc"⟩⟩ rfl rfl

/-- C6. Matching is an unanchored search.  For a pattern `p` made only of literal
characters (none of the metacharacters of the pattern language) and every node
name `s`, the status is `Success`, with the empty reason, when `p` occurs in `s`
as a contiguous run of characters, and `Unschedulable` otherwise. -/
theorem Filter_literal_pattern_substring (r : RegexScheduling) (state : CycleState)
    (p s : String) (hlit : ∀ c ∈ p.data, c ∉ specialBytes) :
    (Contains s p →
      Filter goStdlib r state ⟨some [(RegexAnnotationKey, p)]⟩ ⟨⟨s⟩⟩ =
        { Code := StatusCode.Success, Reason := "" }) ∧
    (¬ Contains s p →
      (Filter goStdlib r state ⟨some [(RegexAnnotationKey, p)]⟩ ⟨⟨s⟩⟩).Code =
        StatusCode.Unschedulable) := by
  have hc : goStdlib.Compile p = .ok (literalRegexp p.data) := by
    show Compile p = _
    unfold Compile
    rw [Parse_literal p hlit]
  constructor
  · intro h
    exact Filter_of_match goStdlib r state _ _ p (literalRegexp p.data) (index_singleton _ _) hc
      ((MatchString_literalRegexp p.data s).mpr h)
  · intro h
    have hm : goStdlib.reMatchString (literalRegexp p.data) s = false := by
      cases hb : goStdlib.reMatchString (literalRegexp p.data) s with
      | false => rfl
      | true => exact absurd ((MatchString_literalRegexp p.data s).mp hb) h
    rw [Filter_of_nomatch goStdlib r state _ ⟨⟨s⟩⟩ p (literalRegexp p.data) (index_singleton _ _) hc hm]

/-- The instance of C6 named in the claim: the pattern `abc` is found inside the
node name `node-abc-1`, which it does not equal. -/
theorem Filter_literal_pattern_substring_witness :
    Filter goStdlib ⟨⟨[]⟩⟩ ⟨[]⟩ ⟨some [(RegexAnnotationKey, "abc")]⟩ ⟨⟨"node-abc-1"⟩⟩ =
      { Code := StatusCode.Success, Reason := "" } :=
  (Filter_literal_pattern_substring ⟨⟨[]⟩⟩ ⟨[]⟩ "abc" "node-abc-1" (by decide)).1 (by decide)

/-- C11. `Filter` has no effect on what it is given.  With the logger, the cycle
state, the annotations and the node name as explicit state, the state after a
call of `Filter` is the state before it, for every input and whatever the status
returned; and the status is the one the function `Filter` computes from that
state. -/
theorem FilterCall_frame (L : Stdlib) (h : Host) :
    (FilterCall L h).2.state = h.state ∧
    (FilterCall L h).2.annotations = h.annotations ∧
    (FilterCall L h).2.nodeName = h.nodeName ∧
    (FilterCall L h).2.log = h.log ∧
    (FilterCall L h).2 = h ∧
    (FilterCall L h).1 = Filter L ⟨h.log⟩ h.state ⟨h.annotations⟩ ⟨⟨h.nodeName⟩⟩ := by
  rw [FilterCall_eq]
  exact ⟨rfl, rfl, rfl, rfl, rfl, rfl⟩

/-- C12. `New` never fails and does not read the configuration: for every logger
and every configuration payload, the empty one included, it returns the plugin
holding that logger together with the nil error, and `Filter` on the plugin built
from one payload returns what it returns on the plugin built from any other. -/
theorem New_succeeds_ignoring_config (klog : Klog) (jsonConfig : List (Fin 256)) :
    (New klog jsonConfig).2 = none ∧
    (New klog jsonConfig).1 = RegexScheduling.mk klog ∧
    New klog jsonConfig = New klog [] ∧
    (∀ (jsonConfig2 : List (Fin 256)) (L : Stdlib) (state : CycleState) (pod : Pod)
        (nodeInfo : NodeInfo),
      Filter L (New klog jsonConfig).1 state pod nodeInfo =
        Filter L (New klog jsonConfig2).1 state pod nodeInfo) :=
  ⟨rfl, rfl, rfl, fun _ _ _ _ _ => rfl⟩

/-- C14. The status depends only on the lookup of the key
`scheduler.example.com/regex` and on the node name: two calls whose annotations
give the same lookup result for that key (absent in both, or present with the
same value in both) and whose node names are equal return the same status,
whatever the other annotations, the cycle states and the loggers. -/
theorem Filter_noninterference (L : Stdlib) (r1 r2 : RegexScheduling)
    (state1 state2 : CycleState) (pod1 pod2 : Pod) (nodeInfo1 nodeInfo2 : NodeInfo)
    (hkey : pod1.GetAnnotations.index RegexAnnotationKey =
      pod2.GetAnnotations.index RegexAnnotationKey)
    (hnode : nodeInfo1.Node.GetName = nodeInfo2.Node.GetName) :
    Filter L r1 state1 pod1 nodeInfo1 = Filter L r2 state2 pod2 nodeInfo2 := by
  unfold Filter
  rw [hkey, hnode]

/-- An instance of C14: two pods that agree on the constraint `^node-b` and differ
in their other annotations, filtered with different loggers and cycle states. -/
theorem Filter_noninterference_witness :
    Filter goStdlib ⟨⟨[]⟩⟩ ⟨[]⟩ ⟨some [(RegexAnnotationKey, "^node-b")]⟩ ⟨⟨"node-abc"⟩⟩ =
      Filter goStdlib ⟨⟨["started"]⟩⟩ ⟨[("k", "v")]⟩
        ⟨some [("app", "web"), (RegexAnnotationKey, "^node-b"), ("tier", "(")]⟩
        ⟨⟨"node-abc"⟩⟩ :=
  Filter_noninterference goStdlib ⟨⟨[]⟩⟩ ⟨⟨["started"]⟩⟩ ⟨[]⟩ ⟨[("k", "v")]⟩
    ⟨some [(RegexAnnotationKey, "^node-b")]⟩
    ⟨some [("app", "web"), (RegexAnnotationKey, "^node-b"), ("tier", "(")]⟩
    ⟨⟨"node-abc"⟩⟩ ⟨⟨"node-abc"⟩⟩ (by decide) rfl

/-- C15. When the constraint `p` compiles and does not match the node name, the
reason is `Node `, the Go-quoted (`%q`) node name, ` does not match regex ` and
the Go-quoted pattern.  When the node name and the pattern consist of printable
ASCII characters other than the double quote and the backslash, quoting only
puts them between double quotes, so the reason contains both as they stand. -/
theorem Filter_unschedulable_reason (L : Stdlib) (r : RegexScheduling) (state : CycleState)
    (pod : Pod) (nodeInfo : NodeInfo) (p : String) (re : L.Regexp)
    (hkey : pod.GetAnnotations.index RegexAnnotationKey = (p, true))
    (hc : L.Compile p = .ok re)
    (hm : L.reMatchString re nodeInfo.Node.GetName = false) :
    (Filter L r state pod nodeInfo).Reason =
      "Node " ++ Quote L.isPrintWide nodeInfo.Node.GetName ++
        " does not match regex " ++ Quote L.isPrintWide p ∧
    ((∀ c ∈ nodeInfo.Node.GetName.data, plainASCII c) → (∀ c ∈ p.data, plainASCII c) →
      (Filter L r state pod nodeInfo).Reason =
        "Node " ++ ("\"" ++ nodeInfo.Node.GetName ++ "\"") ++
          " does not match regex " ++ ("\"" ++ p ++ "\"") ∧
      Contains (Filter L r state pod nodeInfo).Reason nodeInfo.Node.GetName ∧
      Contains (Filter L r state pod nodeInfo).Reason p) := by
  rw [Filter_of_nomatch L r state pod nodeInfo p re hkey hc hm]
  refine ⟨rfl, fun hs hp => ?_⟩
  have hs1 : ∀ c ∈ nodeInfo.Node.GetName.data, plainRune L.isPrintWide c :=
    fun c hcm => plainRune_of_plainASCII _ c (hs c hcm)
  have hp1 : ∀ c ∈ p.data, plainRune L.isPrintWide c :=
    fun c hcm => plainRune_of_plainASCII _ c (hp c hcm)
  refine ⟨?_, ?_, ?_⟩
  · show "Node " ++ Quote L.isPrintWide nodeInfo.Node.GetName ++
        " does not match regex " ++ Quote L.isPrintWide p = _
    rw [Quote_of_plain _ _ hs1, Quote_of_plain _ _ hp1]
  · exact Contains_trans
      (Contains_trans (Contains_append_left _ _)
        (Contains_trans (Contains_append_left _ _) (Contains_append_right _ _)))
      (Contains_Quote_of_plain _ _ hs1)
  · exact Contains_trans (Contains_append_right _ _) (Contains_Quote_of_plain _ _ hp1)

/-- An instance of C15: pattern `^node-b`, node `node-abc`. -/
theorem Filter_unschedulable_reason_witness :
    (Filter goStdlib ⟨⟨[]⟩⟩ ⟨[]⟩ ⟨some [(RegexAnnotationKey, "^node-b")]⟩
      ⟨⟨"node-abc"⟩⟩).Reason = "Node \"node-abc\" does not match regex \"^node-b\"" :=
  ((Filter_unschedulable_reason goStdlib ⟨⟨[]⟩⟩ ⟨[]⟩
    ⟨some [(RegexAnnotationKey, "^node-b")]⟩ ⟨⟨"node-abc"⟩⟩ "^node-b"
    (.Concat .BeginText (.Concat (.Literal 'n') (.Concat (.Literal 'o') (.Concat (.Literal 'd')
      (.Concat (.Literal 'e') (.Concat (.Literal '-') (.Literal 'b')))))))
    (index_singleton _ _) rfl (by decide)).2 (by decide) (by decide)).1.trans (by decide)

/-- C16. A constraint that is present and empty behaves like an absent one: the
empty pattern compiles, to the expression that matches the empty string, which
is found in every node name, so the status is `Success` with the empty reason,
as it is for a pod without annotations. -/
theorem Filter_empty_pattern (r : RegexScheduling) (state : CycleState) (pod : Pod)
    (nodeInfo : NodeInfo)
    (hkey : pod.GetAnnotations.index RegexAnnotationKey = ("", true)) :
    goStdlib.Compile "" = .ok Regexp.EmptyMatch ∧
    (∀ s : String, Regexp.EmptyMatch.MatchString s = true) ∧
    Filter goStdlib r state pod nodeInfo = { Code := StatusCode.Success, Reason := "" } ∧
    Filter goStdlib r state pod nodeInfo = Filter goStdlib r state ⟨none⟩ nodeInfo := by
  have hf : Filter goStdlib r state pod nodeInfo =
      { Code := StatusCode.Success, Reason := "" } :=
    Filter_of_match goStdlib r state pod nodeInfo "" Regexp.EmptyMatch hkey rfl
      (MatchString_EmptyMatch _)
  refine ⟨rfl, MatchString_EmptyMatch, hf, ?_⟩
  rw [hf]
  exact (Filter_of_absent goStdlib r state ⟨none⟩ nodeInfo rfl).symm

/-- Instances of C16: the empty constraint on the node `node-1` and on the node
with the empty name. -/
theorem Filter_empty_pattern_witness :
    Filter goStdlib ⟨⟨[]⟩⟩ ⟨[]⟩ ⟨some [(RegexAnnotationKey, "")]⟩ ⟨⟨"node-1"⟩⟩ =
      { Code := StatusCode.Success, Reason := "" } ∧
    Filter goStdlib ⟨⟨[]⟩⟩ ⟨[]⟩ ⟨some [(RegexAnnotationKey, "")]⟩ ⟨⟨""⟩⟩ =
      { Code := StatusCode.Success, Reason := "" } :=
  ⟨(Filter_empty_pattern ⟨⟨[]⟩⟩ ⟨[]⟩ ⟨some [(RegexAnnotationKey, "")]⟩ ⟨⟨"node-1"⟩⟩
      (index_singleton _ _)).2.2.1,
   (Filter_empty_pattern ⟨⟨[]⟩⟩ ⟨[]⟩ ⟨some [(RegexAnnotationKey, "")]⟩ ⟨⟨""⟩⟩
      (index_singleton _ _)).2.2.1⟩

end RegexExample
